import Mathlib

/-!
Shallow embedding of the application tasks of the RealTime_Systems_Masterclass
repository (FreeRTOS course assignments):

* `Assignment_01/Task_03/main.c` — an LED task and a button task sharing an
  `LED_data_st` record (toggle rate, pin state), with duration-bucketed
  dispatch on falling edges of the button pin;
* `Assignment_02/Task_02/main.c` — two periodic producer tasks sharing a UART
  through a mutex, each emitting ten messages with a digit suffix per mutex
  hold;
* `Assignment_02/Task_03/main.c` — two button edge-detection producers and a
  periodic string producer feeding a queue of `Message_st` pointers drained by
  a single consumer task.

The kernel primitives (queue, mutex, scheduler, timeouts) are external to the
repository; where a property depends on them they are modelled from the
specification and the definitions say so in their doc comments.

The file is organised as all definitions first, then all theorems.
-/

namespace RTS

/-! ## Definitions: pin levels and edge detection -/

/-- Pin levels, embedding the `pinState_t` enumeration of the GPIO driver
(`PIN_IS_LOW`, `PIN_IS_HIGH`). -/
inductive pinState_t
  | PIN_IS_LOW
  | PIN_IS_HIGH
deriving DecidableEq

open pinState_t

/-- Tag of an edge event reported by an input sampling task. -/
inductive EdgeTag
  | Rising
  | Falling
deriving DecidableEq

/-- Embeds the edge-detection branch shared by `Button1_task_code` and
`Button2_task_code` (Assignment_02/Task_03) and by the transition test of
`Button_task_code` (Assignment_01/Task_03): when the newly read level differs
from the stored previous level an edge is reported, `Rising` when the new
level is `PIN_IS_HIGH` (previous was low), `Falling` otherwise. -/
def detectEdge (prev curr : pinState_t) : Option EdgeTag :=
  if curr ≠ prev then
    if curr = PIN_IS_HIGH then some EdgeTag.Rising else some EdgeTag.Falling
  else
    none

/-- One sampling call of an edge-detection task: the first component is the
new stored previous level (always the level just read, whether or not an edge
fired — the source runs `prev_state = curr_state` unconditionally at the end
of the loop body), the second the edge event, if any. -/
def sampler_step (prev curr : pinState_t) : pinState_t × Option EdgeTag :=
  (curr, detectEdge prev curr)

/-- Runs the edge detector over a sequence of freshly read levels, starting
from a stored previous level, collecting the emitted edge events in order. -/
def runSampler : pinState_t → List pinState_t → List EdgeTag
  | _, [] => []
  | prev, curr :: rest => (detectEdge prev curr).toList ++ runSampler curr rest

/-! ## Definitions: Assignment_01/Task_03, LED task and button task -/

/-- The `NO_TOGGLE` constant of Assignment_01/Task_03 (toggle period 0 means
toggling disabled). -/
def NO_TOGGLE : Int := 0

/-- Embeds the `LED_data_st` record of Assignment_01/Task_03: pin number,
current pin state, toggle rate in ticks (`int` in the source). -/
structure LED_data_st where
  pin_num : Nat
  pin_state : pinState_t
  toggle_rate : Int
deriving DecidableEq

/-- The `LED1` record created in `main` of Assignment_01/Task_03:
`{PIN1, PIN_IS_LOW, NO_TOGGLE}`. -/
def LED1_init : LED_data_st :=
  { pin_num := 1, pin_state := PIN_IS_LOW, toggle_rate := NO_TOGGLE }

/-- Embeds `pin_state ^= 1` of `LED_task_code`: on the two-valued level
enumeration (0/1), xor with 1 flips the level. -/
def pinState_xor1 : pinState_t → pinState_t
  | PIN_IS_LOW => PIN_IS_HIGH
  | PIN_IS_HIGH => PIN_IS_LOW

/-- The blocking action ending one iteration of `LED_task_code`: either
`vTaskSuspend(NULL)` or `vTaskDelay(toggle_rate)`. -/
inductive LEDAction
  | suspend_self
  | delay (ticks : Int)
deriving DecidableEq

/-- Embeds one iteration of the loop of `LED_task_code`
(Assignment_01/Task_03): writes the current `pin_state` to the pin (second
component of the result), then, if `toggle_rate == NO_TOGGLE`, suspends
itself leaving the record unchanged; otherwise flips `pin_state` and delays
for `toggle_rate` ticks. -/
def LED_task_iter (d : LED_data_st) : LED_data_st × pinState_t × LEDAction :=
  if d.toggle_rate = NO_TOGGLE then
    (d, d.pin_state, LEDAction.suspend_self)
  else
    ({ d with pin_state := pinState_xor1 d.pin_state }, d.pin_state,
     LEDAction.delay d.toggle_rate)

/-- Embeds the falling-edge dispatch of `Button_task_code`
(Assignment_01/Task_03), run when the pin is read Low and the previous state
was High: the accumulated `duration` is classified by the source's
`if (duration >= 0 && duration < 2000) / else if (duration >= 2000 &&
duration < 4000) / else` chain.  The first bucket disables toggling and
clears the pin; the other two set the toggle rate to 400 resp. 100 and call
`vTaskResume(LED_handle)` (the returned Bool records whether resume was
called). -/
def button_dispatch (duration : Nat) (led : LED_data_st) : LED_data_st × Bool :=
  if 0 ≤ duration ∧ duration < 2000 then
    ({ led with toggle_rate := NO_TOGGLE, pin_state := PIN_IS_LOW }, false)
  else if 2000 ≤ duration ∧ duration < 4000 then
    ({ led with toggle_rate := 400 }, true)
  else
    ({ led with toggle_rate := 100 }, true)

/-- Per-iteration state of `Button_task_code`: the accumulated High-hold
duration in ms and the stored previous pin level. -/
structure ButtonState where
  duration : Nat
  pin0_prev_state : pinState_t
deriving DecidableEq

/-- Embeds one iteration of the loop of `Button_task_code`
(Assignment_01/Task_03) given the freshly read pin level: while the pin reads
High the duration grows by 10 (the sampling period in ms); on a Low read
following a stored High (a falling edge) the duration is dispatched through
`button_dispatch`, and on any Low read the duration resets to 0.  The stored
previous level always becomes the level just read.  Result: new button state,
new shared LED record, whether `vTaskResume(LED_handle)` was called. -/
def Button_task_iter (s : ButtonState) (led : LED_data_st)
    (pin0_curr_state : pinState_t) : ButtonState × LED_data_st × Bool :=
  if pin0_curr_state = PIN_IS_HIGH then
    ({ duration := s.duration + 10, pin0_prev_state := pin0_curr_state }, led, false)
  else if s.pin0_prev_state = PIN_IS_HIGH then
    let r := button_dispatch s.duration led
    ({ duration := 0, pin0_prev_state := pin0_curr_state }, r.1, r.2)
  else
    ({ duration := 0, pin0_prev_state := pin0_curr_state }, led, false)

/-! ## Definitions: Assignment_02/Task_02, mutex-guarded UART producers -/

/-- Embeds the `INT_TO_CHAR` macro of Assignment_02/Task_02:
`(char)(number + '0')`. -/
def INT_TO_CHAR (number : Nat) : Char :=
  Char.ofNat (number + '0'.toNat)

/-- The initial message body of `task1_code`: `"Task 1 - Message x\n"`
(19 characters; the source computes `message_len = strlen(message) = 19`
once and then overwrites index `message_len - 2 = 17`, the `x`). -/
def task1_message_init : List Char := "Task 1 - Message x\n".toList

/-- The initial message body of `task2_code`: `"Task 2 - Message x\n"`. -/
def task2_message_init : List Char := "Task 2 - Message x\n".toList

/-- The message `task1_code` hands to `vSerialPutString` for loop counter
`message_ID`: the body with `message[message_len - 2] =
INT_TO_CHAR(message_ID)`. -/
def task1_message (message_ID : Nat) : List Char :=
  task1_message_init.set (task1_message_init.length - 2) (INT_TO_CHAR message_ID)

/-- The message `task2_code` hands to `vSerialPutString` for loop counter
`message_ID`. -/
def task2_message (message_ID : Nat) : List Char :=
  task2_message_init.set (task2_message_init.length - 2) (INT_TO_CHAR message_ID)

/-- The messages emitted by `task1_code` during `k` iterations of its outer
`while(1)` loop: each iteration acquires the mutex and runs the inner
`for (message_ID = 0; message_ID < 10; message_ID++)` loop, emitting the ten
messages with suffixes 0..9 in order, then releases the mutex. -/
def task1_run : Nat → List (List Char)
  | 0 => []
  | k + 1 => task1_run k ++ (List.range 10).map task1_message

/-- The messages emitted by `task2_code` during `k` iterations of its outer
loop (same structure as `task1_run`). -/
def task2_run : Nat → List (List Char)
  | 0 => []
  | k + 1 => task2_run k ++ (List.range 10).map task2_message

/-- Events of one producer-task loop iteration in Assignment_02/Task_02,
used to trace mutex usage: `take`/`give` are `xSemaphoreTake`/
`xSemaphoreGive` on the shared mutex, `emit i` is the
`vSerialPutString` call for inner loop counter `i`, `heavy_load` the
busy-wait loop of `task2_code`, and `delay` a `vTaskDelay`. -/
inductive GateEv
  | take
  | give
  | emit (message_ID : Nat)
  | heavy_load
  | delay (ticks : Nat)
deriving DecidableEq

/-- The event trace of one iteration of the `while(1)` loop of `task1_code`,
given whether `xSemaphoreTake(mutex, portMAX_DELAY)` returned `pdTRUE`: on
success the ten emissions (each followed by `vTaskDelay(100)`) happen and the
mutex is given back before the iteration ends; either way the iteration ends
with `vTaskDelay(1)`. -/
def task1_iter_trace (take_succeeded : Bool) : List GateEv :=
  (if take_succeeded then
    [GateEv.take] ++
      ((List.range 10).flatMap (fun i => [GateEv.emit i, GateEv.delay 100])) ++
      [GateEv.give]
  else []) ++ [GateEv.delay 1]

/-- The event trace of one iteration of the `while(1)` loop of `task2_code`:
as `task1_iter_trace` but each emission is followed by the heavy-load
busy-wait and `vTaskDelay(500)`. -/
def task2_iter_trace (take_succeeded : Bool) : List GateEv :=
  (if take_succeeded then
    [GateEv.take] ++
      ((List.range 10).flatMap
        (fun i => [GateEv.emit i, GateEv.heavy_load, GateEv.delay 500])) ++
      [GateEv.give]
  else []) ++ [GateEv.delay 1]

/-- Whether an event acts on the mutex. -/
def is_gate_ev : GateEv → Bool
  | GateEv.take => true
  | GateEv.give => true
  | _ => false

/-- Whether the task holds the mutex after processing a list of events,
starting from holding state `held`. -/
def holds_after (held : Bool) : List GateEv → Bool
  | [] => held
  | GateEv.take :: rest => holds_after true rest
  | GateEv.give :: rest => holds_after false rest
  | _ :: rest => holds_after held rest

/-! ## Definitions: Assignment_02/Task_03, queue producers and consumer -/

/-- The `MESSAGE_LEN` constant of Assignment_02/Task_03: maximum number of
characters in a message (the body array holds `MESSAGE_LEN + 1` bytes). -/
def MESSAGE_LEN : Nat := 25

/-- The `MESSAGE_QUEUE_LEN` constant of Assignment_02/Task_03: queue
capacity. -/
def MESSAGE_QUEUE_LEN : Nat := 10

/-- Embeds the `Message_st` record of Assignment_02/Task_03: message body and
actual length. -/
structure Message_st where
  message : List Char
  message_len : Nat
deriving DecidableEq

/-- The `strcpy` + `strlen` pattern of the producer tasks: copy a string
literal into the body and store its length. -/
def mkMessage (body : String) : Message_st :=
  { message := body.toList, message_len := body.toList.length }

/-- Message written by `Button1_task_code` on a rising edge. -/
def button1_rising_message : Message_st := mkMessage "Button1 Rising Edge\n"

/-- Message written by `Button1_task_code` on a falling edge. -/
def button1_falling_message : Message_st := mkMessage "Button1 Falling Edge\n"

/-- Message written by `Button2_task_code` on a rising edge. -/
def button2_rising_message : Message_st := mkMessage "Button2 Rising Edge\n"

/-- Message written by `Button2_task_code` on a falling edge. -/
def button2_falling_message : Message_st := mkMessage "Button2 Falling Edge\n"

/-- Message written once by `String_task_code` before its loop. -/
def periodic_message : Message_st := mkMessage "Periodic Message\n"

/-- The body `String_task_code` copies into its record before the loop. -/
def string_task_message : List Char := "Periodic Message\n".toList

/-- Embeds the per-tick emission of `String_task_code`
(Assignment_02/Task_03): the body is set once before the `while(1)` loop and
every iteration sends the same record, so the emission is independent of the
tick index. -/
def string_task_emission : Nat → List Char :=
  fun _ => string_task_message

/-! ## Definitions: bounded message channel (modelled from the spec) -/

/-- Modelled from the spec: the bounded FIFO channel primitive behind
`xQueueCreate` / `xQueueSend` / `xQueueReceive` — the FreeRTOS queue, whose
implementation is external to the repository.  Spec §4.4: capacity fixed at
construction; `send` enqueues at the back when a slot is free; `receive`
dequeues the oldest item; delivery order equals enqueue order. -/
structure Channel (α : Type) where
  capacity : Nat
  items : List α
deriving DecidableEq

/-- Modelled from the spec: `send` succeeds (returns the new channel) exactly
when a slot is free; on a full channel the caller blocks (`none`). -/
def Channel.send {α : Type} (c : Channel α) (m : α) : Option (Channel α) :=
  if c.items.length < c.capacity then
    some { c with items := c.items ++ [m] }
  else
    none

/-- Modelled from the spec: `receive` dequeues the oldest item; on an empty
channel the caller blocks (`none`). -/
def Channel.receive {α : Type} (c : Channel α) : Option (α × Channel α) :=
  match c.items with
  | [] => none
  | m :: rest => some (m, { c with items := rest })

/-- Sends a list of messages in call order; `none` if any send would
block. -/
def Channel.sendAll {α : Type} : List α → Channel α → Option (Channel α)
  | [], c => some c
  | m :: ms, c =>
    match c.send m with
    | none => none
    | some c2 => Channel.sendAll ms c2

/-- Receives `n` messages in order; `none` if any receive would block. -/
def Channel.receiveN {α : Type} : Nat → Channel α → Option (List α × Channel α)
  | 0, c => some ([], c)
  | n + 1, c =>
    match c.receive with
    | none => none
    | some (m, c2) =>
      match Channel.receiveN n c2 with
      | none => none
      | some (ms, c3) => some (m :: ms, c3)

/-! ## Definitions: the by-reference hand-off of Assignment_02/Task_03 -/

/-- Producer identities of Assignment_02/Task_03: 0 = Button1, 1 = Button2,
2 = the periodic string task.  Each owns one `Message_st` record created in
`main` and passed to its task; `xQueueSend` enqueues a POINTER to that record
(the queue is created with item size `sizeof(Message_st *)`). -/
abbrev ProducerId := Fin 3

/-- An event of the queue demo: a producer writing its record in place and
sending its pointer (`strcpy` / `strlen` followed by `xQueueSend(&ptr)`), or
the consumer receiving a pointer. -/
inductive QEvent
  | send (p : ProducerId) (m : Message_st)
  | recv
deriving DecidableEq

/-- Global state of the queue demo of Assignment_02/Task_03: the three
per-producer `Message_st` records, the queue of pending pointers in FIFO
order, the message values the consumer has read (each receive dereferences
the pointer at receive time, as `Consumer_task_code` does before
`vSerialPutString`), and the log of accepted sends in acceptance order
(producer, and the value its record held when the send was accepted). -/
structure QueueSys where
  store : ProducerId → Message_st
  queue : List ProducerId
  received : List Message_st
  accepted : List (ProducerId × Message_st)

/-- Initial state: records uninitialised (empty), queue empty. -/
def qinit : QueueSys :=
  { store := fun _ => { message := [], message_len := 0 },
    queue := [], received := [], accepted := [] }

/-- One event of the queue demo.  A send when the queue is full leaves the
state unchanged (the producer blocks — the slot-acceptance semantics of the
external FreeRTOS queue is modelled from the spec); a receive on an empty
queue leaves the state unchanged (the consumer blocks). -/
def qstep (s : QueueSys) : QEvent → QueueSys
  | QEvent.send p m =>
    if s.queue.length < MESSAGE_QUEUE_LEN then
      { s with store := Function.update s.store p m,
               queue := s.queue ++ [p],
               accepted := s.accepted ++ [(p, m)] }
    else s
  | QEvent.recv =>
    match s.queue with
    | [] => s
    | p :: rest =>
      { s with queue := rest, received := s.received ++ [s.store p] }

/-- Runs the queue demo over a list of events. -/
def qrun : QueueSys → List QEvent → QueueSys
  | s, [] => s
  | s, e :: evs => qrun (qstep s e) evs

/-- The producers of the send events of a trace, in order. -/
def sendProducers : List QEvent → List ProducerId
  | [] => []
  | QEvent.send p _ :: evs => p :: sendProducers evs
  | QEvent.recv :: evs => sendProducers evs

/-- Hand-off invariant of the queue demo: the accepted message values are
exactly the received values followed by the current contents of the records
the pending pointers reference, and the pending pointers are the accepted
senders not yet received. -/
abbrev QInv (s : QueueSys) : Prop :=
  s.received ++ s.queue.map s.store = s.accepted.map Prod.snd ∧
  s.queue = (s.accepted.map Prod.fst).drop s.received.length

/-! ## Definitions: blocking-call timeouts -/

/-- Timeout argument of a blocking kernel call: a finite tick count, or
block forever. -/
inductive Timeout
  | ticks (n : Nat)
  | forever
deriving DecidableEq

/-- Modelled from the spec (§7): the FreeRTOS constant `portMAX_DELAY`
passed by every application blocking call means "block indefinitely, never
time out". -/
def portMAX_DELAY : Timeout := Timeout.forever

/-- Kind of blocking operation performed by the application tasks. -/
inductive BlockingOp
  | gate_take
  | channel_send
  | channel_receive
deriving DecidableEq

/-- A blocking call site of the application code: the operation and the
timeout argument the source passes. -/
structure BlockingCallSite where
  op : BlockingOp
  timeout : Timeout
deriving DecidableEq

/-- Call site `xSemaphoreTake(mutex, portMAX_DELAY)` in `task1_code`
(Assignment_02/Task_02). -/
def task1_take_call : BlockingCallSite := ⟨BlockingOp.gate_take, portMAX_DELAY⟩

/-- Call site `xSemaphoreTake(mutex, portMAX_DELAY)` in `task2_code`. -/
def task2_take_call : BlockingCallSite := ⟨BlockingOp.gate_take, portMAX_DELAY⟩

/-- Call site `xQueueSend(message_queue, &ptr, portMAX_DELAY)` in `Button1_task_code`
(Assignment_02/Task_03). -/
def button1_send_call : BlockingCallSite := ⟨BlockingOp.channel_send, portMAX_DELAY⟩

/-- Call site `xQueueSend(message_queue, &ptr, portMAX_DELAY)` in `Button2_task_code`. -/
def button2_send_call : BlockingCallSite := ⟨BlockingOp.channel_send, portMAX_DELAY⟩

/-- Call site `xQueueSend(message_queue, &ptr, portMAX_DELAY)` in `String_task_code`. -/
def string_send_call : BlockingCallSite := ⟨BlockingOp.channel_send, portMAX_DELAY⟩

/-- Call site `xQueueReceive(message_queue, &ptr, portMAX_DELAY)` in
`Consumer_task_code`. -/
def consumer_receive_call : BlockingCallSite := ⟨BlockingOp.channel_receive, portMAX_DELAY⟩

/-- All gate acquires and channel sends/receives performed by the application
tasks of the source. -/
def app_blocking_calls : List BlockingCallSite :=
  [task1_take_call, task2_take_call, button1_send_call, button2_send_call,
   string_send_call, consumer_receive_call]

/-- Result of a blocking call that returned. -/
inductive CallOutcome
  | completed
  | timedOut
deriving DecidableEq

/-- Modelled from the spec: outcome of a blocking call when the awaited
resource first becomes available `f` ticks after the call (`none` = never).
A finite timeout of `n` ticks completes when `f ≤ n` and otherwise times
out; an infinite timeout completes whenever the resource becomes available
and otherwise never returns at all (`none`). -/
def blocking_outcome : Timeout → Option Nat → Option CallOutcome
  | Timeout.ticks n, some f =>
    if f ≤ n then some CallOutcome.completed else some CallOutcome.timedOut
  | Timeout.ticks _, none => some CallOutcome.timedOut
  | Timeout.forever, some _ => some CallOutcome.completed
  | Timeout.forever, none => none

/-! ## Definitions: sampling cadence of the input tasks -/

/-- Per-iteration events of an input sampling task, for tracing pin reads,
queue sends and delays. -/
inductive SampleEv
  | pin_read
  | queue_send
  | delay (ticks : Nat)
deriving DecidableEq

/-- Sampling period of `Button_task_code` (Assignment_01/Task_03):
`vTaskDelay(10)` — every 10 ms. -/
def Button_task_delay_ticks : Nat := 10

/-- Sampling period of `Button1_task_code` (Assignment_02/Task_03):
`vTaskDelay(1)` — the source comment reads "Run every 1 ms". -/
def Button1_task_delay_ticks : Nat := 1

/-- Sampling period of `Button2_task_code` (Assignment_02/Task_03):
`vTaskDelay(1)`. -/
def Button2_task_delay_ticks : Nat := 1

/-- Event trace of one loop iteration of `Button_task_code`
(Assignment_01/Task_03): one `GPIO_read`, branch work on local state (no
further reads or sends), then the fixed delay. -/
def Button_task_iter_trace : List SampleEv :=
  [SampleEv.pin_read, SampleEv.delay Button_task_delay_ticks]

/-- Event trace of one loop iteration of `Button1_task_code`: one
`GPIO_read`, a queue send when an edge is detected, then the fixed delay. -/
def Button1_task_iter_trace (prev curr : pinState_t) : List SampleEv :=
  [SampleEv.pin_read] ++
    (match detectEdge prev curr with
     | some _ => [SampleEv.queue_send]
     | none => []) ++
    [SampleEv.delay Button1_task_delay_ticks]

/-- Event trace of one loop iteration of `Button2_task_code` (same shape as
`Button1_task_code`, reading PIN1 instead of PIN0). -/
def Button2_task_iter_trace (prev curr : pinState_t) : List SampleEv :=
  [SampleEv.pin_read] ++
    (match detectEdge prev curr with
     | some _ => [SampleEv.queue_send]
     | none => []) ++
    [SampleEv.delay Button2_task_delay_ticks]

/-- All message bodies any producer of Assignment_02/Task_03 copies into a
`Message_st`. -/
def producer_messages : List Message_st :=
  [button1_rising_message, button1_falling_message, button2_rising_message,
   button2_falling_message, periodic_message]

/-! ## Theorems -/

/-- C3: on each sampling call the detector emits an edge exactly when the new
level differs from the stored one, tagged `Rising` when the new level is High
and `Falling` when it is Low, and the stored previous level becomes the new
level on every call.  For the sampled sequence Low, Low, High, High, Low
(first sample initialises the stored level, as in the source where the state
variable is initialised from a read before the loop) exactly one `Rising`
edge is emitted, appearing once sample 3 is processed, and exactly one
`Falling` edge, appearing once sample 5 is processed. -/
theorem edge_detector_spec : ∀ prev curr : pinState_t,
    (sampler_step prev curr).1 = curr ∧
    (sampler_step prev curr).2 =
      (if curr = prev then none
       else some (if curr = PIN_IS_HIGH then EdgeTag.Rising else EdgeTag.Falling)) ∧
    runSampler PIN_IS_LOW [PIN_IS_LOW] = [] ∧
    runSampler PIN_IS_LOW [PIN_IS_LOW, PIN_IS_HIGH] = [EdgeTag.Rising] ∧
    runSampler PIN_IS_LOW [PIN_IS_LOW, PIN_IS_HIGH, PIN_IS_HIGH] = [EdgeTag.Rising] ∧
    runSampler PIN_IS_LOW [PIN_IS_LOW, PIN_IS_HIGH, PIN_IS_HIGH, PIN_IS_LOW] =
      [EdgeTag.Rising, EdgeTag.Falling] := by
  intro prev curr
  cases prev <;> cases curr <;> decide

/-- C8: an iteration of the LED task with toggle rate 0 leaves `pin_state`
unchanged (the level is held and the task suspends itself); with a nonzero
toggle rate the iteration flips `pin_state` and delays by the rate.  The
written pin level is always the `pin_state` on entry. -/
theorem led_toggle_rate_zero_holds : ∀ d : LED_data_st,
    (LED_task_iter d).1.pin_state =
      (if d.toggle_rate = NO_TOGGLE then d.pin_state else pinState_xor1 d.pin_state) ∧
    (LED_task_iter d).2.1 = d.pin_state ∧
    (LED_task_iter d).2.2 =
      (if d.toggle_rate = NO_TOGGLE then LEDAction.suspend_self
       else LEDAction.delay d.toggle_rate) ∧
    ((LED_task_iter d).1.pin_state = d.pin_state ↔ d.toggle_rate = NO_TOGGLE) := by
  intro d
  by_cases h : d.toggle_rate = NO_TOGGLE
  · simp [LED_task_iter, h]
  · simp [LED_task_iter, h]
    cases hd : d.pin_state <;> simp [pinState_xor1]

/-- C2: on the falling edge ending a High hold (stored level High, new read
Low) the button task classifies the accumulated duration into exactly one of
three inclusive-low/exclusive-high buckets: `[0,2000)` disables toggling and
forces the pin Low without resuming the LED task; `[2000,4000)` sets the slow
rate 400 and resumes the LED task; `[4000,∞)` sets the fast rate 100 and
resumes the LED task.  The duration then resets to 0 and the stored level
becomes Low, so 2000 lands in the middle bucket and 4000 in the top one. -/
theorem button_hold_buckets : ∀ (s : ButtonState) (led : LED_data_st),
    s.pin0_prev_state = PIN_IS_HIGH →
    ((Button_task_iter s led PIN_IS_LOW).1 =
      { duration := 0, pin0_prev_state := PIN_IS_LOW }) ∧
    (s.duration < 2000 →
      (Button_task_iter s led PIN_IS_LOW).2 =
        ({ led with toggle_rate := NO_TOGGLE, pin_state := PIN_IS_LOW }, false)) ∧
    (2000 ≤ s.duration → s.duration < 4000 →
      (Button_task_iter s led PIN_IS_LOW).2 = ({ led with toggle_rate := 400 }, true)) ∧
    (4000 ≤ s.duration →
      (Button_task_iter s led PIN_IS_LOW).2 = ({ led with toggle_rate := 100 }, true)) := by
  intro s led hprev
  refine ⟨?_, ?_, ?_, ?_⟩
  · simp [Button_task_iter, hprev]
  · intro h1
    simp [Button_task_iter, hprev, button_dispatch, h1]
  · intro h1 h2
    simp [Button_task_iter, hprev, button_dispatch, h1, h2, Nat.not_lt.mpr h1]
  · intro h1
    have h2 : ¬ s.duration < 2000 := by omega
    have h3 : ¬ s.duration < 4000 := by omega
    simp [Button_task_iter, hprev, button_dispatch, h2, h3]

/-- Witness for `button_hold_buckets`: a hold measured as exactly 2000 ms
falls in the middle (slow-rate) bucket, one of exactly 4000 ms in the top
(fast-rate) bucket, and one of 0 ms disables toggling, each starting from
the initial `LED1` record. -/
theorem button_hold_buckets_witness :
    (Button_task_iter ⟨2000, PIN_IS_HIGH⟩ LED1_init PIN_IS_LOW).2 =
      ({ LED1_init with toggle_rate := 400 }, true) ∧
    (Button_task_iter ⟨4000, PIN_IS_HIGH⟩ LED1_init PIN_IS_LOW).2 =
      ({ LED1_init with toggle_rate := 100 }, true) ∧
    (Button_task_iter ⟨0, PIN_IS_HIGH⟩ LED1_init PIN_IS_LOW).2 =
      ({ LED1_init with toggle_rate := NO_TOGGLE, pin_state := PIN_IS_LOW }, false) :=
  ⟨(button_hold_buckets ⟨2000, PIN_IS_HIGH⟩ LED1_init rfl).2.2.1 (by decide) (by decide),
   (button_hold_buckets ⟨4000, PIN_IS_HIGH⟩ LED1_init rfl).2.2.2 (by decide),
   (button_hold_buckets ⟨0, PIN_IS_HIGH⟩ LED1_init rfl).2.1 (by decide)⟩

/-- Helper: `task1_run k` holds `10 * k` messages. -/
theorem task1_run_length (k : Nat) : (task1_run k).length = 10 * k := by
  induction k with
  | zero => rfl
  | succ k ih =>
    simp only [task1_run, List.length_append, List.length_map, List.length_range, ih]
    omega

/-- Helper: `task2_run k` holds `10 * k` messages. -/
theorem task2_run_length (k : Nat) : (task2_run k).length = 10 * k := by
  induction k with
  | zero => rfl
  | succ k ih =>
    simp only [task2_run, List.length_append, List.length_map, List.length_range, ih]
    omega

/-- Helper: the `n`-th message emitted by `task1_code` carries suffix
counter `n % 10`. -/
theorem task1_run_getElem (k n : Nat) (h : n < 10 * k) :
    (task1_run k)[n]? = some (task1_message (n % 10)) := by
  induction k with
  | zero => omega
  | succ k ih =>
    by_cases hn : n < 10 * k
    · rw [task1_run, List.getElem?_append_left (by rw [task1_run_length]; exact hn)]
      exact ih hn
    · have h1 : 10 * k ≤ n := Nat.not_lt.mp hn
      rw [task1_run, List.getElem?_append_right (by rw [task1_run_length]; exact h1),
        task1_run_length, List.getElem?_map, List.getElem?_range (by omega)]
      have hmod : n % 10 = n - 10 * k := by omega
      rw [hmod]
      rfl

/-- Helper: the `n`-th message emitted by `task2_code` carries suffix
counter `n % 10`. -/
theorem task2_run_getElem (k n : Nat) (h : n < 10 * k) :
    (task2_run k)[n]? = some (task2_message (n % 10)) := by
  induction k with
  | zero => omega
  | succ k ih =>
    by_cases hn : n < 10 * k
    · rw [task2_run, List.getElem?_append_left (by rw [task2_run_length]; exact hn)]
      exact ih hn
    · have h1 : 10 * k ≤ n := Nat.not_lt.mp hn
      rw [task2_run, List.getElem?_append_right (by rw [task2_run_length]; exact h1),
        task2_run_length, List.getElem?_map, List.getElem?_range (by omega)]
      have hmod : n % 10 = n - 10 * k := by omega
      rw [hmod]
      rfl

/-- Helper: the suffix character (index `message_len - 2 = 17`) of the
message emitted with counter `m < 10` is the digit for `m`. -/
theorem task_message_suffix : ∀ m, m < 10 →
    (task1_message m)[17]? = some (INT_TO_CHAR m) ∧
    (task2_message m)[17]? = some (INT_TO_CHAR m) := by
  decide

/-- C5 (amended): the two Gate-protected UART emitters (`task1_code`,
`task2_code` of Assignment_02/Task_02) produce, as their `n`-th emission of
any run, the message whose counter suffix (the character at index
`message_len - 2`) is the digit for `n % 10`, so the suffixes cycle
0,1,...,9,0,1,... and the emission after one with suffix 9 has suffix 0.
The Channel-configured emitter (`String_task_code` of Assignment_02/Task_03)
instead sends the fixed body `"Periodic Message\n"` on every tick, with no
counter suffix. -/
theorem emitter_suffix_cycle : ∀ k n : Nat, n < 10 * k →
    (task1_run k)[n]? = some (task1_message (n % 10)) ∧
    (task2_run k)[n]? = some (task2_message (n % 10)) ∧
    (task1_message (n % 10))[17]? = some (INT_TO_CHAR (n % 10)) ∧
    (task2_message (n % 10))[17]? = some (INT_TO_CHAR (n % 10)) ∧
    (n + 1) % 10 = (if n % 10 = 9 then 0 else n % 10 + 1) ∧
    string_task_emission n = string_task_message := by
  intro k n h
  have hm : n % 10 < 10 := Nat.mod_lt _ (by omega)
  refine ⟨task1_run_getElem k n h, task2_run_getElem k n h,
    (task_message_suffix _ hm).1, (task_message_suffix _ hm).2, ?_, rfl⟩
  by_cases h9 : n % 10 = 9 <;> simp [h9] <;> omega

/-- Witness for `emitter_suffix_cycle`: in a run of two mutex holds of
`task1_code`, emission 9 carries suffix 9 and emission 10 carries suffix 0
(the counter wraps), and the Channel emitter's tick-9 output is the fixed
periodic message. -/
theorem emitter_suffix_cycle_witness :
    ((task1_run 2)[9]? = some (task1_message (9 % 10)) ∧
      (task2_run 2)[9]? = some (task2_message (9 % 10)) ∧
      (task1_message (9 % 10))[17]? = some (INT_TO_CHAR (9 % 10)) ∧
      (task2_message (9 % 10))[17]? = some (INT_TO_CHAR (9 % 10)) ∧
      (9 + 1) % 10 = (if 9 % 10 = 9 then 0 else 9 % 10 + 1) ∧
      string_task_emission 9 = string_task_message) ∧
    (task1_run 2)[10]? = some (task1_message (10 % 10)) :=
  ⟨emitter_suffix_cycle 2 9 (by decide), (emitter_suffix_cycle 2 10 (by decide)).1⟩

/-- C5 counterexample: the claim extends the counter-suffix contract to the
Channel-configured emitter, but `String_task_code` sends the same fixed
message on every tick: the emission at tick 1 equals the emission at tick 0
(the counter never advances), and the character at the suffix position
`message_len - 2 = 15` is `'e'`, which is none of the ten digit characters
`INT_TO_CHAR` can produce. -/
theorem emitter_suffix_counterexample :
    string_task_emission 0 = string_task_emission 1 ∧
    (string_task_emission 0)[15]? = some 'e' ∧
    'e' ∉ (List.range 10).map INT_TO_CHAR := by
  decide

/-- Helper: mutex-holding state threads through appended event lists. -/
theorem holds_after_append (xs ys : List GateEv) : ∀ h : Bool,
    holds_after h (xs ++ ys) = holds_after (holds_after h xs) ys := by
  induction xs with
  | nil => intro h; rfl
  | cons x rest ih => intro h; cases x <;> simp [holds_after, ih]

/-- Helper: a single iteration of either producer task of
Assignment_02/Task_02 never ends holding the mutex. -/
theorem iter_trace_releases (b : Bool) :
    holds_after false (task1_iter_trace b) = false ∧
    holds_after false (task2_iter_trace b) = false := by
  cases b <;> constructor <;> decide

/-- C7: for either producer task of Assignment_02/Task_02, an iteration in
which `xSemaphoreTake` succeeds performs exactly the mutex operations
take-then-give (so the gate is released before the iteration ends), an
iteration in which it fails performs none, and across any sequence of
iterations the task never ends an iteration holding the mutex. -/
theorem gate_released_every_iteration : ∀ (b : Bool) (bs : List Bool),
    (task1_iter_trace b).filter is_gate_ev =
      (if b then [GateEv.take, GateEv.give] else []) ∧
    (task2_iter_trace b).filter is_gate_ev =
      (if b then [GateEv.take, GateEv.give] else []) ∧
    holds_after false (bs.flatMap task1_iter_trace) = false ∧
    holds_after false (bs.flatMap task2_iter_trace) = false := by
  intro b bs
  refine ⟨by cases b <;> decide, by cases b <;> decide, ?_, ?_⟩
  · induction bs with
    | nil => rfl
    | cons x rest ih =>
      rw [List.flatMap_cons, holds_after_append, (iter_trace_releases x).1, ih]
  · induction bs with
    | nil => rfl
    | cons x rest ih =>
      rw [List.flatMap_cons, holds_after_append, (iter_trace_releases x).2, ih]

/-- Helper: as long as the capacity is not exceeded, `sendAll` appends the
messages to the channel content in call order. -/
theorem sendAll_appends {α : Type} : ∀ (msgs : List α) (c : Channel α),
    c.items.length + msgs.length ≤ c.capacity →
    Channel.sendAll msgs c = some { c with items := c.items ++ msgs } := by
  intro msgs
  induction msgs with
  | nil => intro c h; simp [Channel.sendAll]
  | cons m ms ih =>
    intro c h
    have hlen : c.items.length < c.capacity := by
      simp only [List.length_cons] at h; omega
    simp only [Channel.sendAll, Channel.send, if_pos hlen]
    rw [ih { c with items := c.items ++ [m] }
      (by simp only [List.length_append, List.length_cons, List.length_nil] at h ⊢; omega)]
    simp

/-- Helper: receiving `n ≤` content-length messages dequeues the oldest `n`
in order. -/
theorem receiveN_takes {α : Type} : ∀ (n : Nat) (c : Channel α),
    n ≤ c.items.length →
    Channel.receiveN n c = some (c.items.take n, { c with items := c.items.drop n }) := by
  intro n
  induction n with
  | zero => intro c h; simp [Channel.receiveN]
  | succ n ih =>
    intro c h
    match hc : c.items with
    | [] => rw [hc] at h; simp at h
    | m :: rest =>
      rw [hc] at h
      simp only [Channel.receiveN, Channel.receive, hc]
      rw [ih { c with items := rest } (by simp only [List.length_cons] at h ⊢; omega)]
      simp

/-- C1: starting from an empty channel, for every sequence of sends whose
count does not exceed the capacity, all sends are accepted and the same
number of receives returns exactly the sent messages in the order the sends
were accepted, leaving the channel empty. -/
theorem channel_fifo : ∀ (c : Channel Message_st) (msgs : List Message_st),
    c.items = [] → msgs.length ≤ c.capacity →
    (Channel.sendAll msgs c).bind (fun c2 => Channel.receiveN msgs.length c2) =
      some (msgs, { capacity := c.capacity, items := [] }) := by
  intro c msgs hempty hcap
  rw [sendAll_appends msgs c (by rw [hempty]; simpa), hempty, List.nil_append,
    Option.some_bind, receiveN_takes msgs.length { c with items := msgs } (by simp)]
  simp

/-- Witness for `channel_fifo`: three producers send `"A"`, `"B"`, `"C"` in
that call order to an empty channel of capacity 10; three successive
receives return `"A"`, then `"B"`, then `"C"`. -/
theorem channel_fifo_witness :
    (Channel.sendAll [mkMessage "A", mkMessage "B", mkMessage "C"]
        (Channel.mk 10 [])).bind (fun c2 => Channel.receiveN 3 c2) =
      some ([mkMessage "A", mkMessage "B", mkMessage "C"], Channel.mk 10 []) :=
  channel_fifo (Channel.mk 10 []) [mkMessage "A", mkMessage "B", mkMessage "C"]
    rfl (by decide)

/-- Helper: `qstep`/`qrun` preserve the hand-off invariant as long as no
producer whose pointer may still be pending sends again. -/
theorem qrun_inv : ∀ (evs : List QEvent) (s : QueueSys),
    QInv s →
    (∀ p ∈ sendProducers evs, p ∉ s.accepted.map Prod.fst) →
    (sendProducers evs).Nodup →
    QInv (qrun s evs) := by
  intro evs
  induction evs with
  | nil => intro s hinv _ _; exact hinv
  | cons e evs ih =>
    intro s hinv hdisj hnodup
    obtain ⟨h1, h2⟩ := hinv
    show QInv (qrun (qstep s e) evs)
    cases e with
    | send p m =>
      simp only [sendProducers] at hdisj hnodup
      have hp_new : p ∉ s.accepted.map Prod.fst := hdisj p (List.mem_cons_self p _)
      have hcons := List.nodup_cons.mp hnodup
      by_cases hfull : s.queue.length < MESSAGE_QUEUE_LEN
      · have hstep : qstep s (QEvent.send p m) =
            { s with store := Function.update s.store p m,
                     queue := s.queue ++ [p],
                     accepted := s.accepted ++ [(p, m)] } := by
          simp only [qstep]; rw [if_pos hfull]
        rw [hstep]
        have hq_ne : ∀ q ∈ s.queue, q ≠ p := by
          intro q hq hqp
          exact hp_new (hqp ▸ List.mem_of_mem_drop (h2 ▸ hq))
        have hlen : s.received.length ≤ (s.accepted.map Prod.fst).length := by
          have hl := congrArg List.length h1
          simp only [List.length_append, List.length_map] at hl ⊢
          omega
        apply ih
        · refine ⟨?_, ?_⟩
          · show s.received ++ (s.queue ++ [p]).map (Function.update s.store p m) =
              (s.accepted ++ [(p, m)]).map Prod.snd
            rw [List.map_append, List.map_append,
              List.map_congr_left
                (fun q hq => Function.update_noteq (hq_ne q hq) m s.store),
              ← List.append_assoc, h1]
            simp [Function.update_same]
          · show s.queue ++ [p] =
              ((s.accepted ++ [(p, m)]).map Prod.fst).drop s.received.length
            rw [List.map_append,
              List.drop_append_of_le_length (by simpa using hlen), ← h2]
            rfl
        · intro q hq
          simp only [List.map_append, List.mem_append, List.map_cons, List.map_nil,
            List.mem_singleton]
          rintro (hqa | hqp)
          · exact hdisj q (List.mem_cons_of_mem p hq) hqa
          · exact hcons.1 (hqp ▸ hq)
        · exact hcons.2
      · have hstep : qstep s (QEvent.send p m) = s := by
          simp only [qstep]; rw [if_neg hfull]
        rw [hstep]
        exact ih s ⟨h1, h2⟩ (fun q hq => hdisj q (List.mem_cons_of_mem p hq)) hcons.2
    | recv =>
      simp only [sendProducers] at hdisj hnodup
      match hq : s.queue with
      | [] =>
        have hstep : qstep s QEvent.recv = s := by
          simp only [qstep, hq]
        rw [hstep]
        exact ih s ⟨h1, h2⟩ hdisj hnodup
      | p :: rest =>
        have hstep : qstep s QEvent.recv =
            { s with queue := rest, received := s.received ++ [s.store p] } := by
          simp only [qstep, hq]
        rw [hstep]
        have hdropA : (s.accepted.map Prod.fst).drop s.received.length = p :: rest :=
          h2.symm.trans hq
        apply ih
        · refine ⟨?_, ?_⟩
          · show (s.received ++ [s.store p]) ++ rest.map s.store =
              s.accepted.map Prod.snd
            rw [hq, List.map_cons] at h1
            rw [List.append_assoc, List.singleton_append]
            exact h1
          · show rest =
              (s.accepted.map Prod.fst).drop (s.received ++ [s.store p]).length
            have hlen2 : (s.received ++ [s.store p]).length = s.received.length + 1 := by
              simp
            rw [hlen2, ← List.drop_drop, hdropA]
            rfl
        · exact hdisj
        · exact hnodup

/-- C4 counterexample: `Button1_task_code` reuses one `Message_st` record for
every send and the queue stores a pointer to it.  In the trace where Button1
detects a rising edge and then a falling edge before the consumer runs, the
first send is accepted carrying `"Button1 Rising Edge\n"`, yet the
consumer's first receive reads `"Button1 Falling Edge\n"`: the record was
modified between the acceptance of the send and its consumption. -/
theorem msg_immutability_counterexample :
    (qrun qinit [QEvent.send 0 button1_rising_message,
        QEvent.send 0 button1_falling_message, QEvent.recv]).accepted.map Prod.snd =
      [button1_rising_message, button1_falling_message] ∧
    (qrun qinit [QEvent.send 0 button1_rising_message,
        QEvent.send 0 button1_falling_message, QEvent.recv]).received =
      [button1_falling_message] ∧
    button1_falling_message ≠ button1_rising_message := by
  refine ⟨rfl, rfl, ?_⟩
  decide

/-- C4 (amended): messages are handed over by reference to a per-producer
record, so a record is guaranteed unmodified between send and receive only
while its producer does not send again.  In every run whose sends all come
from pairwise distinct producers (each producer hands over at most once),
the values the consumer reads are exactly the accepted message values, in
acceptance order and unmodified, and every accepted send is consumed at most
once — each is either delivered exactly once or still pending. -/
theorem msg_handoff_single_send : ∀ evs : List QEvent,
    (sendProducers evs).Nodup →
    (qrun qinit evs).received =
      ((qrun qinit evs).accepted.map Prod.snd).take (qrun qinit evs).received.length ∧
    (qrun qinit evs).received.length + (qrun qinit evs).queue.length =
      (qrun qinit evs).accepted.length := by
  intro evs hnodup
  obtain ⟨h1, h2⟩ :=
    qrun_inv evs qinit ⟨rfl, rfl⟩ (by intro p hp; simp [qinit]) hnodup
  constructor
  · rw [← h1, List.take_left]
  · have := congrArg List.length h1
    simp only [List.length_append, List.length_map] at this
    omega

/-- Witness for `msg_handoff_single_send`: Button1 and the string task each
send once and the consumer receives twice; both reads return the accepted
values unmodified and both sends are consumed exactly once. -/
theorem msg_handoff_single_send_witness :
    (qrun qinit [QEvent.send 0 button1_rising_message,
        QEvent.send 2 periodic_message, QEvent.recv, QEvent.recv]).received =
      ((qrun qinit [QEvent.send 0 button1_rising_message,
          QEvent.send 2 periodic_message, QEvent.recv, QEvent.recv]).accepted.map
            Prod.snd).take
        (qrun qinit [QEvent.send 0 button1_rising_message,
            QEvent.send 2 periodic_message, QEvent.recv, QEvent.recv]).received.length ∧
    (qrun qinit [QEvent.send 0 button1_rising_message,
        QEvent.send 2 periodic_message, QEvent.recv, QEvent.recv]).received.length +
      (qrun qinit [QEvent.send 0 button1_rising_message,
          QEvent.send 2 periodic_message, QEvent.recv, QEvent.recv]).queue.length =
      (qrun qinit [QEvent.send 0 button1_rising_message,
          QEvent.send 2 periodic_message, QEvent.recv, QEvent.recv]).accepted.length :=
  msg_handoff_single_send
    [QEvent.send 0 button1_rising_message, QEvent.send 2 periodic_message,
     QEvent.recv, QEvent.recv] (by decide)

/-- C6: every gate acquire and every channel send/receive performed by the
application tasks passes `portMAX_DELAY`, so none of these calls can time
out: whatever tick (if any) the awaited resource becomes available at, the
outcome is never `timedOut`, and the call returns exactly when the gate is
actually acquired / the message actually enqueued or dequeued. -/
theorem blocking_calls_never_timeout : ∀ c ∈ app_blocking_calls, ∀ free : Option Nat,
    c.timeout = portMAX_DELAY ∧
    blocking_outcome c.timeout free ≠ some CallOutcome.timedOut ∧
    (blocking_outcome c.timeout free = some CallOutcome.completed ↔
      free.isSome = true) := by
  intro c hc free
  have ht : c.timeout = portMAX_DELAY := by
    fin_cases hc <;> rfl
  refine ⟨ht, ?_, ?_⟩ <;> rw [ht] <;> cases free <;>
    simp [blocking_outcome, portMAX_DELAY]

/-- Witness for `blocking_calls_never_timeout`: the consumer's receive call
site, with a resource that never becomes available — the call blocks forever
and in particular never reports a timeout. -/
theorem blocking_calls_never_timeout_witness :
    consumer_receive_call.timeout = portMAX_DELAY ∧
    blocking_outcome consumer_receive_call.timeout none ≠ some CallOutcome.timedOut ∧
    (blocking_outcome consumer_receive_call.timeout none = some CallOutcome.completed ↔
      (none : Option Nat).isSome = true) :=
  blocking_calls_never_timeout consumer_receive_call (by decide) none

/-- C9 counterexample: `Button1_task_code` and `Button2_task_code` poll
their pins once per 1 ms, not once per 10 ms: their per-iteration delay
constants are 1, and an iteration (here: both reads Low, no edge) ends with
a 1-tick delay. -/
theorem sampler_interval_counterexample :
    Button1_task_delay_ticks ≠ 10 ∧
    Button2_task_delay_ticks ≠ 10 ∧
    Button1_task_iter_trace PIN_IS_LOW PIN_IS_LOW =
      [SampleEv.pin_read, SampleEv.delay 1] := by
  decide

/-- C9 (amended): every digital input sampling task performs exactly one pin
read per loop iteration, first in the iteration, and ends the iteration with
its fixed delay; the delay is 10 ms for `Button_task_code` of
Assignment_01/Task_03 but 1 ms for `Button1_task_code` and
`Button2_task_code` of Assignment_02/Task_03. -/
theorem sampler_one_read_per_iter : ∀ prev curr : pinState_t,
    Button_task_iter_trace.count SampleEv.pin_read = 1 ∧
    Button_task_iter_trace.getLast? = some (SampleEv.delay Button_task_delay_ticks) ∧
    (Button1_task_iter_trace prev curr).count SampleEv.pin_read = 1 ∧
    (Button1_task_iter_trace prev curr).head? = some SampleEv.pin_read ∧
    (Button1_task_iter_trace prev curr).getLast? =
      some (SampleEv.delay Button1_task_delay_ticks) ∧
    (Button2_task_iter_trace prev curr).count SampleEv.pin_read = 1 ∧
    (Button2_task_iter_trace prev curr).getLast? =
      some (SampleEv.delay Button2_task_delay_ticks) ∧
    Button_task_delay_ticks = 10 ∧
    Button1_task_delay_ticks = 1 ∧
    Button2_task_delay_ticks = 1 := by
  intro prev curr
  cases prev <;> cases curr <;> decide

/-- C10: every string a producer of Assignment_02/Task_03 copies into a
`Message_st` body has length at most `MESSAGE_LEN = 25`, so each copy
together with its NUL terminator fits in the `MESSAGE_LEN + 1`-byte
`message` array, and the stored `message_len` equals the body length and so
never exceeds `MESSAGE_LEN`. -/
theorem producer_messages_fit : ∀ m ∈ producer_messages,
    m.message.length ≤ MESSAGE_LEN ∧
    m.message_len = m.message.length ∧
    m.message.length + 1 ≤ MESSAGE_LEN + 1 := by
  decide

/-- Witness for `producer_messages_fit`: the longest producer string,
`"Button1 Falling Edge\n"` (21 characters), fits. -/
theorem producer_messages_fit_witness :
    button1_falling_message.message.length ≤ MESSAGE_LEN ∧
    button1_falling_message.message_len = button1_falling_message.message.length ∧
    button1_falling_message.message.length + 1 ≤ MESSAGE_LEN + 1 :=
  producer_messages_fit button1_falling_message (by decide)

end RTS
